import Mathlib

/-!
Verification of the stream-alignatt example
(`examples/stream-alignatt/main.cpp`) and of the streaming subsystem it
drives.

The visible source is the CLI shell: `parse_args`, the capture loop with its
carry-over buffer, and the calls into the streaming API. The streaming core
(`whisper_streaming_*`, the AlignAtt commit policy, segments) is declared and
called there but implemented elsewhere; those parts are modelled from the
specification and each such definition carries a doc comment starting with
`Modelled from the spec:`.

PCM samples are modelled as integers: every operation verified here only
moves samples around (append, drop, length), never computes with their
values.
-/

namespace StreamAlignatt

/-! ### Tokens, segments, and the AlignAtt commit policy (modelled) -/

/-- Modelled from the spec: a decoded token — text fragment, start/end
timestamps, and the attention-peak frame index (the argmax of the token's
per-frame cross-attention weight vector). The peak index is carried directly
because the commit policy depends on the attention vector only through it. -/
structure Token where
  text : String
  t0 : Int
  t1 : Int
  peak : Int
deriving DecidableEq, Repr

/-- Modelled from the spec: the AlignAtt commit test — a token is safe to
commit iff its attention peak lies strictly more than `T` frames from the
trailing edge of a window of `W` frames (`W - peakFrame > frameThreshold`,
strict greater-than). -/
def alignatt_commit_ok (W T peak : Int) : Bool := W - peak > T

/-- Modelled from the spec: the AlignAtt sweep over the tokens newly produced
by one decode step, in decode order: tokens are committed until the first one
whose commit test fails; that token and every later one remain speculative.
Returns the pair (committed run, speculative tail). -/
def alignatt_sweep (W T : Int) : List Token → List Token × List Token
  | [] => ([], [])
  | t :: ts =>
    if alignatt_commit_ok W T t.peak then
      let r := alignatt_sweep W T ts
      (t :: r.1, r.2)
    else
      ([], t :: ts)

/-- Modelled from the spec: a finalized, user-facing segment — text plus
t0/t1 timestamps, immutable once emitted. -/
structure Segment where
  text : String
  t0 : Int
  t1 : Int
deriving DecidableEq, Repr

/-- Modelled from the spec: group a run of committed tokens into one segment —
the text is the concatenation of the token texts and the timestamps span from
the first token's `t0` to the last token's `t1` (the tokens' last computed
timestamps). -/
def mkSegment (ts : List Token) : Segment :=
  { text := String.join (ts.map Token.text)
  , t0 := ((ts.head?).map Token.t0).getD 0
  , t1 := ((ts.getLast?).map Token.t1).getD 0 }

/-- Modelled from the spec: the streaming context — the finalized segments
emitted so far, the speculative tail, the buffered audio samples, and the
configured AlignAtt frame threshold. -/
structure whisper_streaming_context where
  segments : List Segment
  speculative : List Token
  audio : List Int
  frame_threshold : Int
deriving DecidableEq, Repr

/-- Modelled from the spec: append freshly captured samples to the context's
buffered audio (`whisper_streaming_insert_audio`). -/
def whisper_streaming_insert_audio (s : whisper_streaming_context)
    (samples : List Int) : whisper_streaming_context :=
  { s with audio := s.audio ++ samples }

/-- Modelled from the spec: the outcome of one inference invocation — either
a nonzero status (a transient decode failure) or the newly produced tokens
with their attention peaks. -/
inductive DecodeOutcome where
  | failure (code : Int)
  | tokens (ts : List Token)
deriving DecidableEq, Repr

/-- 10 ms of audio per attention frame at the fixed 16 kHz sample rate
(`frame_threshold * 10` ms in the banner print, main.cpp line 155). -/
def samples_per_frame : Nat := 160

/-- Modelled from the spec: the number of attention frames of the current
window held by the context. -/
def window_frames (s : whisper_streaming_context) : Int :=
  ((s.audio.length / samples_per_frame : Nat) : Int)

/-- Modelled from the spec: one processing step (`whisper_streaming_process`).
On a decode failure the step is skipped, the state is unchanged and the
nonzero status is returned. On success the new tokens are swept by the
AlignAtt policy: the newly committed run is grouped into one segment (no
segment when no token committed) appended to the finalized list, and the
speculative tail is replaced (speculative state is step-local). -/
def whisper_streaming_process (s : whisper_streaming_context)
    (outcome : DecodeOutcome) : whisper_streaming_context × Int :=
  match outcome with
  | .failure code => (s, code)
  | .tokens ts =>
    let r := alignatt_sweep (window_frames s) s.frame_threshold ts
    ({ s with
        segments := s.segments ++ (if r.1.isEmpty then [] else [mkSegment r.1])
      , speculative := r.2 }, 0)

/-- Modelled from the spec: finalization (`whisper_streaming_finalize`) — the
threshold check is bypassed and every outstanding speculative token is
committed unconditionally, as one additional segment built from the tokens'
last computed timestamps; nothing is emitted when no speculative token is
outstanding. -/
def whisper_streaming_finalize (s : whisper_streaming_context) :
    whisper_streaming_context :=
  if s.speculative.isEmpty then s
  else { s with segments := s.segments ++ [mkSegment s.speculative]
              , speculative := [] }

/-- `whisper_streaming_n_segments`: the number of finalized segments. -/
def whisper_streaming_n_segments (s : whisper_streaming_context) : Nat :=
  s.segments.length

/-- `whisper_streaming_get_segment_text` in a total embedding: `none` when the
index is out of range. -/
def whisper_streaming_get_segment_text (s : whisper_streaming_context)
    (i : Nat) : Option String :=
  (s.segments.get? i).map Segment.text

/-- `whisper_streaming_get_segment_t0` in a total embedding. -/
def whisper_streaming_get_segment_t0 (s : whisper_streaming_context)
    (i : Nat) : Option Int :=
  (s.segments.get? i).map Segment.t0

/-- `whisper_streaming_get_segment_t1` in a total embedding. -/
def whisper_streaming_get_segment_t1 (s : whisper_streaming_context)
    (i : Nat) : Option Int :=
  (s.segments.get? i).map Segment.t1

/-- Modelled from the spec: the partial text — the speculative tail
concatenated into a single string — `whisper_streaming_get_partial`. -/
def whisper_streaming_get_partial (s : whisper_streaming_context) : String :=
  String.join (s.speculative.map Token.text)

/-- Modelled from the spec: the operations a caller applies to a streaming
context during a session. -/
inductive StreamOp where
  | insert (samples : List Int)
  | process (outcome : DecodeOutcome)
  | finalize
deriving DecidableEq, Repr

/-- Apply one caller operation to the context (the status returned by a
processing step is discarded here; a failed step leaves the state as is). -/
def applyOp (s : whisper_streaming_context) : StreamOp → whisper_streaming_context
  | .insert samples => whisper_streaming_insert_audio s samples
  | .process outcome => (whisper_streaming_process s outcome).1
  | .finalize => whisper_streaming_finalize s

/-- Apply a sequence of caller operations in order. -/
def applyOps (s : whisper_streaming_context) (ops : List StreamOp) :
    whisper_streaming_context :=
  ops.foldl applyOp s

/-! ### The CLI shell: carry-over buffer and main loop (main.cpp) -/

/-- The fixed sample rate, `WHISPER_SAMPLE_RATE` (16 kHz). -/
def WHISPER_SAMPLE_RATE : Nat := 16000

/-- `const int n_keep = (params.keep_ms * WHISPER_SAMPLE_RATE) / 1000;`
(main.cpp line 183): the number of samples carried over between steps. -/
def n_keep (keep_ms : Nat) : Nat := keep_ms * WHISPER_SAMPLE_RATE / 1000

/-- Modelled from the spec: the audio window capacity in samples derived from
the configured `length_ms` — `audio_async audio(params.length_ms)` (main.cpp
line 121) sizes the capture buffer by `length_ms`; its implementation is
outside the visible source. -/
def window_capacity (length_ms : Nat) : Nat :=
  length_ms * WHISPER_SAMPLE_RATE / 1000

/-- main.cpp lines 176-188: build the window `pcmf32` as the previous
carry-over `pcmf32_old` followed by the newly captured `pcmf32_cur`, then
reset the carry-over to the trailing `n_keep` samples of that window (the
whole window when it is not longer than `n_keep`). Returns the pair
(window, new carry-over). -/
def bufferStep (keep_ms : Nat) (pcmf32_old pcmf32_cur : List Int) :
    List Int × List Int :=
  let pcmf32 := pcmf32_old ++ pcmf32_cur
  if pcmf32.length > n_keep keep_ms then
    (pcmf32, pcmf32.drop (pcmf32.length - n_keep keep_ms))
  else
    (pcmf32, pcmf32)

/-- The state the main loop owns across iterations: the streaming context and
the carry-over buffer `pcmf32_old`. -/
structure MainState where
  sctx : whisper_streaming_context
  pcmf32_old : List Int
deriving DecidableEq, Repr

/-- The observable trace of one loop iteration: whether the decoder was
invoked, whether the carry-over buffer logic ran (the buffer was drained),
and the segments available for printing at the end of the iteration
(main.cpp prints segments only after a successful processing call). -/
structure StepTrace where
  decodeCalled : Bool
  drained : Bool
  printed : List Segment
deriving DecidableEq, Repr

/-- main.cpp lines 167-233, one iteration of the main loop: an empty capture
backs off and re-polls (`continue` after a short sleep), touching nothing;
otherwise the window is assembled (carry-over + new samples), the carry-over
is reset, and the window is inserted into the streaming context and
processed; a nonzero status skips the rest of the iteration (`continue`)
without printing. -/
def loopBody (keep_ms : Nat) (st : MainState) (pcmf32_cur : List Int)
    (outcome : DecodeOutcome) : MainState × StepTrace :=
  if pcmf32_cur.isEmpty then
    (st, ⟨false, false, []⟩)
  else
    let r := bufferStep keep_ms st.pcmf32_old pcmf32_cur
    let s1 := whisper_streaming_insert_audio st.sctx r.1
    let pr := whisper_streaming_process s1 outcome
    if pr.2 ≠ 0 then
      ({ sctx := pr.1, pcmf32_old := r.2 }, ⟨true, true, []⟩)
    else
      ({ sctx := pr.1, pcmf32_old := r.2 }, ⟨true, true, pr.1.segments⟩)

/-! ### The CLI shell: argument parsing (main.cpp lines 21-111) -/

/-- `stream_alignatt_params` (main.cpp lines 21-36) with its field defaults.
In the source `n_threads` defaults to `min 4 hardware_concurrency`, a runtime
value; parsing only overwrites fields and never reads this default. -/
structure stream_alignatt_params where
  n_threads : Int := 4
  step_ms : Int := 1000
  length_ms : Int := 3000
  keep_ms : Int := 200
  capture_id : Int := -1
  frame_threshold : Int := 25
  use_vad : Bool := false
  translate : Bool := false
  print_energy : Bool := false
  no_timestamps : Bool := false
  language : String := "en"
  model : String := "models/ggml-base.en.bin"
deriving DecidableEq, Repr

/-- The numeric value of a run of decimal digits. -/
def digitsToNat (cs : List Char) : Nat :=
  cs.foldl (fun acc c => acc * 10 + (c.toNat - 48)) 0

/-- Model of `std::stoi`: skip leading whitespace, read an optional sign and
then the longest nonempty run of digits; `none` when no conversion is
possible (where `std::stoi` throws `std::invalid_argument`). Values are kept
exact; the `int` overflow case (`std::out_of_range`) is not modelled. -/
def stoi (s : String) : Option Int :=
  match s.toList.dropWhile Char.isWhitespace with
  | '-' :: rest =>
    if (rest.takeWhile Char.isDigit).isEmpty then none
    else some (-(digitsToNat (rest.takeWhile Char.isDigit) : Int))
  | '+' :: rest =>
    if (rest.takeWhile Char.isDigit).isEmpty then none
    else some ((digitsToNat (rest.takeWhile Char.isDigit) : Int))
  | cs =>
    if (cs.takeWhile Char.isDigit).isEmpty then none
    else some ((digitsToNat (cs.takeWhile Char.isDigit) : Int))

/-- The flags of main.cpp lines 67-96 that read a value from `argv[++i]`. -/
def isValueFlag (arg : String) : Bool :=
  arg == "-t" || arg == "--threads" || arg == "--step" || arg == "--length" ||
  arg == "--keep" || arg == "-c" || arg == "--capture" ||
  arg == "--alignatt-threshold" || arg == "-l" || arg == "--language" ||
  arg == "-m" || arg == "--model"

/-- The value-reading branches of `parse_args` (main.cpp lines 67-96): apply
the matched branch's assignment to the params, `none` when `std::stoi`
cannot parse the value. -/
def applyValueFlag (arg v : String) (p : stream_alignatt_params) :
    Option stream_alignatt_params :=
  if arg == "-t" || arg == "--threads" then
    (stoi v).map (fun n => { p with n_threads := n })
  else if arg == "--step" then
    (stoi v).map (fun n => { p with step_ms := n })
  else if arg == "--length" then
    (stoi v).map (fun n => { p with length_ms := n })
  else if arg == "--keep" then
    (stoi v).map (fun n => { p with keep_ms := n })
  else if arg == "-c" || arg == "--capture" then
    (stoi v).map (fun n => { p with capture_id := n })
  else if arg == "--alignatt-threshold" then
    (stoi v).map (fun n => { p with frame_threshold := n })
  else if arg == "-l" || arg == "--language" then
    some { p with language := v }
  else if arg == "-m" || arg == "--model" then
    some { p with model := v }
  else none

/-- The boolean-flag branches of `parse_args` (main.cpp lines 85-102); `none`
when the argument matches none of them (the `unknown argument` path). -/
def applyBoolFlag (arg : String) (p : stream_alignatt_params) :
    Option stream_alignatt_params :=
  if arg == "--vad" then some { p with use_vad := true }
  else if arg == "-tr" || arg == "--translate" then
    some { p with translate := true }
  else if arg == "--print-energy" then some { p with print_energy := true }
  else if arg == "-nt" || arg == "--no-timestamps" then
    some { p with no_timestamps := true }
  else none

/-- The outcome of `parse_args` (main.cpp lines 59-111) in a total embedding:
`ok` (return true), `help` and `unknown` (usage printed, return false),
`missing_value` — the branch reached when a value-taking flag is the last
argument, where the C++ reads `argv[++i]` with `i + 1 = argc`, one past the
end, with no bounds check — and `bad_value` when `std::stoi` cannot parse the
value (in the C++ the exception escapes). -/
inductive parse_result where
  | ok (p : stream_alignatt_params)
  | help
  | unknown (a : String)
  | missing_value (flag : String)
  | bad_value (flag v : String)
deriving DecidableEq, Repr

/-- `parse_args` (main.cpp lines 59-111) over `argv[1..]`. The `else if`
chain of the source is split by branch shape: the help test, the value-taking
branches (`applyValueFlag`, which read `argv[++i]` — `missing_value` when no
next argument exists), and the boolean branches (`applyBoolFlag`); the string
sets of the branch groups are disjoint, so the grouping preserves the
source's first-match semantics. -/
def parse_args : List String → stream_alignatt_params → parse_result
  | [], p => .ok p
  | arg :: rest, p =>
    if arg = "-h" ∨ arg = "--help" then .help
    else if isValueFlag arg then
      match rest with
      | [] => .missing_value arg
      | v :: rest2 =>
        match applyValueFlag arg v p with
        | none => .bad_value arg v
        | some p2 => parse_args rest2 p2
    else
      match applyBoolFlag arg p with
      | some p2 => parse_args rest p2
      | none => .unknown arg

/-! ### Concrete instances used by scenario parts of the claims -/

/-- The five tokens of the worked scenario, with attention-peak frames
10, 50, 100, 280 and 295. -/
def scenarioTokens : List Token :=
  [⟨"tok1", 0, 1, 10⟩, ⟨"tok2", 1, 2, 50⟩, ⟨"tok3", 2, 3, 100⟩,
   ⟨"tok4", 3, 4, 280⟩, ⟨"tok5", 4, 5, 295⟩]

/-- A context holding a 300-frame window (48000 samples at 160 samples per
frame) with the default threshold 25 and nothing yet emitted. -/
def scenarioCtx : whisper_streaming_context :=
  { segments := [], speculative := [], audio := List.replicate 48000 0
  , frame_threshold := 25 }

/-- A token with attention peak at frame `W - T - 1 = 274` for `W = 300`,
`T = 25` (distance 26 from the trailing edge). -/
def boundaryToken : Token := ⟨"tok", 0, 1, 274⟩

/-! ### Theorems -/

/-- The sweep is the threshold test's longest passing run and its remainder. -/
theorem alignatt_sweep_eq (W T : Int) (ts : List Token) :
    alignatt_sweep W T ts =
      (ts.takeWhile (fun t => alignatt_commit_ok W T t.peak),
       ts.dropWhile (fun t => alignatt_commit_ok W T t.peak)) := by
  induction ts with
  | nil => rfl
  | cons t ts ih =>
    by_cases h : alignatt_commit_ok W T t.peak = true
    · simp [alignatt_sweep, h, ih, List.takeWhile_cons, List.dropWhile_cons]
    · simp [alignatt_sweep, h, List.takeWhile_cons, List.dropWhile_cons]

/-- C1: AlignAtt commit rule. For every decode step over a window of `W`
frames with threshold `T`, the newly produced run is split by a contiguous
sweep of the strict test `W - peak > T`: the longest passing run from the
start is committed in order, and from the first failing token on everything
is speculative; no token is lost or reordered. In the worked scenario
(`W = 300`, `T = 25`, peaks 10, 50, 100, 280, 295) exactly the first three
tokens commit, as one segment, and the last two stay speculative. -/
theorem C1_alignatt_commit_rule :
    (∀ (W T : Int) (ts : List Token),
      alignatt_sweep W T ts =
        (ts.takeWhile (fun t => alignatt_commit_ok W T t.peak),
         ts.dropWhile (fun t => alignatt_commit_ok W T t.peak)) ∧
      (alignatt_sweep W T ts).1 ++ (alignatt_sweep W T ts).2 = ts) ∧
    window_frames scenarioCtx = 300 ∧
    (whisper_streaming_process scenarioCtx (.tokens scenarioTokens)).1.segments
      = [mkSegment (scenarioTokens.take 3)] ∧
    (whisper_streaming_process scenarioCtx (.tokens scenarioTokens)).1.speculative
      = scenarioTokens.drop 3 := by
  have hA : scenarioCtx.audio.length = 48000 := by
    show (List.replicate 48000 (0 : Int)).length = 48000
    rw [List.length_replicate]
  have hW : window_frames scenarioCtx = 300 := by
    unfold window_frames
    rw [hA]
    norm_num [samples_per_frame]
  have hsweep : alignatt_sweep 300 25 scenarioTokens =
      (scenarioTokens.take 3, scenarioTokens.drop 3) := by decide
  have hT : scenarioCtx.frame_threshold = 25 := rfl
  have hS : scenarioCtx.segments = [] := rfl
  refine ⟨fun W T ts => ⟨alignatt_sweep_eq W T ts, ?_⟩, hW, ?_, ?_⟩
  · rw [alignatt_sweep_eq]
    simp
  · simp only [whisper_streaming_process, hW, hT, hS, hsweep]
    decide
  · simp only [whisper_streaming_process, hW, hT, hsweep]

/-- C2 counterexample: the claim marks every token whose attention peak is at
frame `W - T - 1` or closer to the window end as speculative; but at
`W = 300`, `T = 25` a token with peak `274 = W - T - 1` has distance
`26 > 25` from the trailing edge, passes the strict test, and is committed,
not speculative. -/
theorem C2_counterexample :
    alignatt_commit_ok 300 25 boundaryToken.peak = true ∧
    alignatt_sweep 300 25 [boundaryToken] = ([boundaryToken], []) := by
  decide

/-- C2 (amended): with threshold `T` over a window of `W` frames, a newly
produced token is committed iff its attention peak is at frame `W - T - 1` or
further from the window end (distance strictly greater than `T`), and is left
speculative iff its peak is at frame `W - T` or closer (distance at most
`T`); in particular a peak at exactly distance `T` from the edge is not yet
safe and stays speculative — the commit test is strict greater-than. -/
theorem C2_threshold_boundary (W T : Int) (t : Token) :
    (alignatt_sweep W T [t]).1 = (if t.peak ≤ W - T - 1 then [t] else []) ∧
    (alignatt_sweep W T [t]).2 = (if W - T ≤ t.peak then [t] else []) := by
  have hiff : (alignatt_commit_ok W T t.peak = true) ↔ t.peak ≤ W - T - 1 := by
    simp only [alignatt_commit_ok, decide_eq_true_eq]
    omega
  by_cases h : t.peak ≤ W - T - 1
  · have hc := hiff.mpr h
    rw [if_pos h, if_neg (by omega)]
    simp [alignatt_sweep, hc]
  · have hc : ¬ (alignatt_commit_ok W T t.peak = true) := fun hh => h (hiff.mp hh)
    rw [if_neg h, if_pos (by omega)]
    simp [alignatt_sweep, hc]

/-- C3: finalization force-commits: whenever 3 speculative tokens are
outstanding — whatever their attention peaks — `finalize` emits exactly one
additional segment, built from all of them with their last computed
timestamps, and clears the speculative tail. -/
theorem C3_finalize_force_commit (s : whisper_streaming_context)
    (h : s.speculative.length = 3) :
    (whisper_streaming_finalize s).segments =
      s.segments ++ [mkSegment s.speculative] ∧
    whisper_streaming_n_segments (whisper_streaming_finalize s) =
      whisper_streaming_n_segments s + 1 ∧
    (whisper_streaming_finalize s).speculative = [] := by
  have hne : s.speculative.isEmpty = false := by
    cases hs : s.speculative with
    | nil => rw [hs] at h; simp at h
    | cons a l => simp
  simp [whisper_streaming_finalize, whisper_streaming_n_segments, hne]

/-- Witness for C3 at a concrete context holding one emitted segment and 3
speculative tokens whose peaks sit right at the window edge. -/
theorem C3_finalize_force_commit_witness :
    (whisper_streaming_finalize
        ⟨[⟨"done", 0, 10⟩],
         [⟨"a", 10, 11, 296⟩, ⟨"b", 11, 12, 298⟩, ⟨"c", 12, 13, 299⟩],
         [], 25⟩).segments =
      (⟨[⟨"done", 0, 10⟩],
        [⟨"a", 10, 11, 296⟩, ⟨"b", 11, 12, 298⟩, ⟨"c", 12, 13, 299⟩],
        [], 25⟩ : whisper_streaming_context).segments ++
        [mkSegment [⟨"a", 10, 11, 296⟩, ⟨"b", 11, 12, 298⟩, ⟨"c", 12, 13, 299⟩]] ∧
    whisper_streaming_n_segments
        (whisper_streaming_finalize
          ⟨[⟨"done", 0, 10⟩],
           [⟨"a", 10, 11, 296⟩, ⟨"b", 11, 12, 298⟩, ⟨"c", 12, 13, 299⟩],
           [], 25⟩) =
      whisper_streaming_n_segments
        ⟨[⟨"done", 0, 10⟩],
         [⟨"a", 10, 11, 296⟩, ⟨"b", 11, 12, 298⟩, ⟨"c", 12, 13, 299⟩],
         [], 25⟩ + 1 ∧
    (whisper_streaming_finalize
        ⟨[⟨"done", 0, 10⟩],
         [⟨"a", 10, 11, 296⟩, ⟨"b", 11, 12, 298⟩, ⟨"c", 12, 13, 299⟩],
         [], 25⟩).speculative = [] :=
  C3_finalize_force_commit
    ⟨[⟨"done", 0, 10⟩],
     [⟨"a", 10, 11, 296⟩, ⟨"b", 11, 12, 298⟩, ⟨"c", 12, 13, 299⟩],
     [], 25⟩ (by decide)

/-- C9: finalize is idempotent — a second call leaves the context, and with
it the final segment set (count, texts and timestamps), exactly as the first
call produced it. -/
theorem C9_finalize_idempotent (s : whisper_streaming_context) :
    whisper_streaming_finalize (whisper_streaming_finalize s) =
      whisper_streaming_finalize s := by
  unfold whisper_streaming_finalize
  by_cases h : s.speculative.isEmpty
  · simp [h]
  · simp [h]

/-- Every caller operation only ever appends to the finalized segment list. -/
theorem applyOp_segments_append (s : whisper_streaming_context)
    (op : StreamOp) :
    ∃ new, (applyOp s op).segments = s.segments ++ new := by
  cases op with
  | insert samples =>
    exact ⟨[], by simp [applyOp, whisper_streaming_insert_audio]⟩
  | process outcome =>
    cases outcome with
    | failure code => exact ⟨[], by simp [applyOp, whisper_streaming_process]⟩
    | tokens ts =>
      refine ⟨(if (alignatt_sweep (window_frames s) s.frame_threshold ts).1.isEmpty
          then []
          else [mkSegment (alignatt_sweep (window_frames s) s.frame_threshold ts).1]), ?_⟩
      simp [applyOp, whisper_streaming_process]
  | finalize =>
    by_cases h : s.speculative.isEmpty
    · exact ⟨[], by simp [applyOp, whisper_streaming_finalize, h]⟩
    · exact ⟨[mkSegment s.speculative],
        by simp [applyOp, whisper_streaming_finalize, h]⟩

/-- Caller-operation sequences only ever append to the segment list. -/
theorem applyOps_segments_append (s : whisper_streaming_context)
    (ops : List StreamOp) :
    ∃ new, (applyOps s ops).segments = s.segments ++ new := by
  induction ops generalizing s with
  | nil => exact ⟨[], by simp [applyOps]⟩
  | cons op ops ih =>
    obtain ⟨n2, h2⟩ := ih (applyOp s op)
    obtain ⟨n1, h1⟩ := applyOp_segments_append s op
    refine ⟨n1 ++ n2, ?_⟩
    have hstep : applyOps s (op :: ops) = applyOps (applyOp s op) ops := rfl
    rw [hstep, h2, h1, List.append_assoc]

/-- C4: committed output is immutable and append-only — across every sequence
of caller operations (audio insertion, successful or failed processing
steps, finalization) the already-emitted segments are still the initial
segments of the list, unchanged in text and timestamps, and the segment list
only grows at the end. -/
theorem C4_committed_append_only (s : whisper_streaming_context)
    (ops : List StreamOp) :
    (applyOps s ops).segments.take s.segments.length = s.segments ∧
    whisper_streaming_n_segments s ≤
      whisper_streaming_n_segments (applyOps s ops) := by
  obtain ⟨new, h⟩ := applyOps_segments_append s ops
  simp only [whisper_streaming_n_segments]
  rw [h]
  constructor
  · exact List.take_left _ _
  · simp

/-- Helper: the drained window is always carry-over ++ new samples. -/
theorem bufferStep_window (keep_ms : Nat) (old cur : List Int) :
    (bufferStep keep_ms old cur).1 = old ++ cur := by
  simp only [bufferStep]
  split <;> rfl

/-- Helper: when the window does not exceed `n_keep`, the whole window is
carried over. -/
theorem bufferStep_carry_of_le (keep_ms : Nat) (old cur : List Int)
    (h : (old ++ cur).length ≤ n_keep keep_ms) :
    (bufferStep keep_ms old cur).2 = old ++ cur := by
  simp only [bufferStep]
  rw [if_neg (by omega)]

/-- C5: the carry-over contract of the audio buffer — the drained window is
the previous carry-over followed by the newly captured samples, and the new
carry-over is a trailing run of that window of exactly the `keep_ms`-derived
`n_keep` count, or the whole window when it is shorter than that. -/
theorem C5_carry_over_contract (keep_ms : Nat) (old cur : List Int) :
    (bufferStep keep_ms old cur).1 = old ++ cur ∧
    (bufferStep keep_ms old cur).2 <:+ old ++ cur ∧
    (bufferStep keep_ms old cur).2.length =
      min (old ++ cur).length (n_keep keep_ms) := by
  refine ⟨bufferStep_window keep_ms old cur, ?_, ?_⟩
  · simp only [bufferStep]
    by_cases h : (old ++ cur).length > n_keep keep_ms
    · rw [if_pos h]
      show (old ++ cur).drop ((old ++ cur).length - n_keep keep_ms) <:+ old ++ cur
      exact List.drop_suffix _ _
    · rw [if_neg h]
  · simp only [bufferStep]
    by_cases h : (old ++ cur).length > n_keep keep_ms
    · rw [if_pos h]
      show ((old ++ cur).drop ((old ++ cur).length - n_keep keep_ms)).length =
        min (old ++ cur).length (n_keep keep_ms)
      rw [List.length_drop]
      omega
    · rw [if_neg h]
      show (old ++ cur).length = min (old ++ cur).length (n_keep keep_ms)
      omega

/-- C6 counterexample: under the accepted configuration `--keep 3000
--length 3000` (capacity 48000 samples) one step that captures 3000 ms of
audio (48000 samples) starting from an empty carry-over leaves a carry-over
of 48000 samples — equal to, not strictly below, the capacity — and the
following step hands the decoder a window of 96000 samples, exceeding the
capacity: the shell never truncates the window from the oldest end. -/
theorem C6_counterexample :
    ¬ (bufferStep 3000 [] (List.replicate 48000 0)).2.length <
        window_capacity 3000 ∧
    ¬ (bufferStep 3000 (bufferStep 3000 [] (List.replicate 48000 0)).2
        (List.replicate 48000 0)).1.length ≤ window_capacity 3000 := by
  have hnk : n_keep 3000 = 48000 := by norm_num [n_keep, WHISPER_SAMPLE_RATE]
  have hcap : window_capacity 3000 = 48000 := by
    norm_num [window_capacity, WHISPER_SAMPLE_RATE]
  have hlen : (List.replicate 48000 (0 : Int)).length = 48000 :=
    List.length_replicate 48000 0
  have h1 : (bufferStep 3000 [] (List.replicate 48000 0)).2 =
      List.replicate 48000 0 := by
    rw [bufferStep_carry_of_le 3000 [] (List.replicate 48000 0)
      (by rw [List.nil_append, hlen, hnk]), List.nil_append]
  constructor
  · rw [h1, hlen, hcap]
    omega
  · rw [h1, bufferStep_window, List.length_append, hlen, hcap]
    omega

/-- C6 (amended): the carry-over never exceeds the `keep_ms`-derived
`n_keep`; therefore whenever `keep_ms < length_ms` the carry-over stays
strictly below the `length_ms`-derived capacity, and whenever additionally a
step's capture is bounded by its `step_ms` worth of samples with
`keep_ms + step_ms ≤ length_ms`, the window handed to the decoder stays
within the capacity. The shell itself never truncates the window; staying
within capacity rests on these configuration bounds. -/
theorem C6_window_capacity_bounds (keep_ms length_ms step_ms : Nat)
    (old cur : List Int)
    (hold : old.length ≤ n_keep keep_ms)
    (hcur : cur.length ≤ step_ms * WHISPER_SAMPLE_RATE / 1000)
    (hkl : keep_ms < length_ms)
    (hks : keep_ms + step_ms ≤ length_ms) :
    (bufferStep keep_ms old cur).2.length ≤ n_keep keep_ms ∧
    (bufferStep keep_ms old cur).2.length < window_capacity length_ms ∧
    (bufferStep keep_ms old cur).1.length ≤ window_capacity length_ms := by
  have e1 : n_keep keep_ms = keep_ms * 16 := by
    unfold n_keep WHISPER_SAMPLE_RATE
    omega
  have e2 : window_capacity length_ms = length_ms * 16 := by
    unfold window_capacity WHISPER_SAMPLE_RATE
    omega
  have e3 : step_ms * WHISPER_SAMPLE_RATE / 1000 = step_ms * 16 := by
    unfold WHISPER_SAMPLE_RATE
    omega
  rw [e1] at hold
  rw [e3] at hcur
  rw [bufferStep_window, e1, e2]
  simp only [bufferStep]
  by_cases h : (old ++ cur).length > n_keep keep_ms
  · rw [if_pos h]
    rw [e1] at h
    simp only [List.length_append] at h ⊢
    simp only [List.length_drop, List.length_append]
    refine ⟨by omega, by omega, by omega⟩
  · rw [if_neg h]
    rw [e1] at h
    simp only [List.length_append] at h ⊢
    refine ⟨by omega, by omega, by omega⟩

/-- Witness for C6 (amended) at the default configuration: `keep_ms = 200`,
`length_ms = 3000`, `step_ms = 1000`, empty carry-over and a full 1000 ms
capture. -/
theorem C6_window_capacity_bounds_witness :
    (bufferStep 200 [] (List.replicate 16000 0)).2.length ≤ n_keep 200 ∧
    (bufferStep 200 [] (List.replicate 16000 0)).2.length <
      window_capacity 3000 ∧
    (bufferStep 200 [] (List.replicate 16000 0)).1.length ≤
      window_capacity 3000 :=
  C6_window_capacity_bounds 200 3000 1000 [] (List.replicate 16000 0)
    (by simp)
    (by rw [List.length_replicate]; norm_num [WHISPER_SAMPLE_RATE])
    (by norm_num) (by norm_num)

/-- C7: a step that yields zero new audio samples is a no-op — the buffer is
not drained, no decode call occurs, nothing is printed, and the loop state
(carry-over and streaming context, hence also the partial text) is exactly
that of the prior step. -/
theorem C7_empty_capture_noop (keep_ms : Nat) (st : MainState)
    (outcome : DecodeOutcome) :
    loopBody keep_ms st [] outcome = (st, ⟨false, false, []⟩) ∧
    whisper_streaming_get_partial (loopBody keep_ms st [] outcome).1.sctx =
      whisper_streaming_get_partial st.sctx := by
  have h : loopBody keep_ms st [] outcome = (st, ⟨false, false, []⟩) := by
    simp [loopBody]
  exact ⟨h, by rw [h]⟩

/-- C8: a transient decode failure is absorbed without corrupting state: for
a step with fresh samples whose inference call fails with a nonzero status,
the committed segment list, the speculative tail and the partial text are
exactly as before the step, nothing is printed, the decode was attempted,
and the buffered audio is retained — the failed step's window (carry-over
followed by the fresh samples) is still in the context's buffer for the next
try. -/
theorem C8_transient_decode_failure (keep_ms : Nat) (st : MainState)
    (cur : List Int) (code : Int) (hcur : cur ≠ []) (hcode : code ≠ 0) :
    (loopBody keep_ms st cur (.failure code)).1.sctx.segments =
      st.sctx.segments ∧
    (loopBody keep_ms st cur (.failure code)).1.sctx.speculative =
      st.sctx.speculative ∧
    whisper_streaming_get_partial
        (loopBody keep_ms st cur (.failure code)).1.sctx =
      whisper_streaming_get_partial st.sctx ∧
    (loopBody keep_ms st cur (.failure code)).1.sctx.audio =
      st.sctx.audio ++ (st.pcmf32_old ++ cur) ∧
    (loopBody keep_ms st cur (.failure code)).2.printed = [] ∧
    (loopBody keep_ms st cur (.failure code)).2.decodeCalled = true := by
  have hne : cur.isEmpty = false := by
    cases cur with
    | nil => exact absurd rfl hcur
    | cons a l => rfl
  have hL : loopBody keep_ms st cur (.failure code) =
      ({ sctx :=
          { st.sctx with audio := st.sctx.audio ++ (st.pcmf32_old ++ cur) }
       , pcmf32_old := (bufferStep keep_ms st.pcmf32_old cur).2 },
       ⟨true, true, []⟩) := by
    simp [loopBody, hne, whisper_streaming_process,
      whisper_streaming_insert_audio, hcode, bufferStep_window]
  rw [hL]
  simp [ whisper_streaming_get_partial]

/-- Witness for C8 at a concrete loop state with buffered context audio, a
carry-over of two samples, one fresh sample, and failure status 5. -/
theorem C8_transient_decode_failure_witness :
    (loopBody 200 ⟨⟨[], [], [7], 25⟩, [1, 2]⟩ [3] (.failure 5)).1.sctx.segments =
      (⟨⟨[], [], [7], 25⟩, [1, 2]⟩ : MainState).sctx.segments ∧
    (loopBody 200 ⟨⟨[], [], [7], 25⟩, [1, 2]⟩ [3]
        (.failure 5)).1.sctx.speculative =
      (⟨⟨[], [], [7], 25⟩, [1, 2]⟩ : MainState).sctx.speculative ∧
    whisper_streaming_get_partial
        (loopBody 200 ⟨⟨[], [], [7], 25⟩, [1, 2]⟩ [3] (.failure 5)).1.sctx =
      whisper_streaming_get_partial
        (⟨⟨[], [], [7], 25⟩, [1, 2]⟩ : MainState).sctx ∧
    (loopBody 200 ⟨⟨[], [], [7], 25⟩, [1, 2]⟩ [3] (.failure 5)).1.sctx.audio =
      (⟨⟨[], [], [7], 25⟩, [1, 2]⟩ : MainState).sctx.audio ++
        ((⟨⟨[], [], [7], 25⟩, [1, 2]⟩ : MainState).pcmf32_old ++ [3]) ∧
    (loopBody 200 ⟨⟨[], [], [7], 25⟩, [1, 2]⟩ [3] (.failure 5)).2.printed =
      [] ∧
    (loopBody 200 ⟨⟨[], [], [7], 25⟩, [1, 2]⟩ [3]
        (.failure 5)).2.decodeCalled = true :=
  C8_transient_decode_failure 200 ⟨⟨[], [], [7], 25⟩, [1, 2]⟩ [3] 5
    (by decide) (by decide)

/-- Helper: a cleanly parsed argument run composes — when `parse_args`
accepts `xs` producing params `q`, parsing `xs ++ ys` continues into `ys`
from `q`. -/
theorem parse_args_append_ok (xs : List String) :
    ∀ (p q : stream_alignatt_params), parse_args xs p = parse_result.ok q →
      ∀ (ys : List String), parse_args (xs ++ ys) p = parse_args ys q := by
  have key : ∀ (n : Nat) (zs : List String), zs.length ≤ n →
      ∀ (p q : stream_alignatt_params),
        parse_args zs p = parse_result.ok q →
      ∀ (ys : List String), parse_args (zs ++ ys) p = parse_args ys q := by
    intro n
    induction n with
    | zero =>
      intro zs hz p q h ys
      obtain rfl : zs = [] := List.eq_nil_of_length_eq_zero (Nat.le_zero.mp hz)
      obtain rfl : p = q := by simpa [parse_args] using h
      rw [List.nil_append]
    | succ n ih =>
      intro zs hz p q h ys
      cases zs with
      | nil =>
        obtain rfl : p = q := by simpa [parse_args] using h
        rw [List.nil_append]
      | cons arg rest =>
        rw [List.cons_append]
        rw [parse_args.eq_def] at h ⊢
        simp only [] at h ⊢
        by_cases h1 : arg = "-h" ∨ arg = "--help"
        · rw [if_pos h1] at h
          exact absurd h (by simp)
        · rw [if_neg h1] at h ⊢
          by_cases h2 : isValueFlag arg = true
          · rw [if_pos h2] at h ⊢
            cases rest with
            | nil => exact absurd h (by simp)
            | cons v rest2 =>
              rw [List.cons_append]
              simp only [] at h ⊢
              cases hv : applyValueFlag arg v p with
              | none =>
                rw [hv] at h
                exact absurd h (by simp)
              | some p2 =>
                rw [hv] at h
                simp only [] at h ⊢
                have hlen : rest2.length ≤ n := by
                  simp at hz
                  omega
                exact ih rest2 hlen p2 q h ys
          · rw [if_neg h2] at h ⊢
            cases hb : applyBoolFlag arg p with
            | none =>
              rw [hb] at h
              exact absurd h (by simp)
            | some p2 =>
              rw [hb] at h
              simp only [] at h ⊢
              have hlen : rest.length ≤ n := by
                simp at hz
                omega
              exact ih rest hlen p2 q h ys
  exact fun p q h ys => key xs.length xs (Nat.le_refl _) p q h ys

/-- Helper: a value-taking flag with no argument after it lands in the
`missing_value` branch: the C++ reads `argv[++i]` one past the end. -/
theorem parse_args_single_value_flag (f : String)
    (hf : isValueFlag f = true) (p : stream_alignatt_params) :
    parse_args [f] p = parse_result.missing_value f := by
  have hh : ¬ (f = "-h" ∨ f = "--help") := by
    rintro (rfl | rfl) <;> exact absurd hf (by decide)
  rw [parse_args.eq_def]
  simp only []
  rw [if_neg hh, if_pos hf]

/-- C10 counterexample: the claim quantifies over every argument vector whose
last element is a value-taking flag; but for `["-h", "-t"]` — where the
value-taking `-t` is the last element — `parse_args` exits at `-h` through
the help path and never indexes past the end, so no out-of-range read
occurs on that input. -/
theorem C10_counterexample :
    parse_args ["-h", "-t"] {} = parse_result.help ∧
    parse_result.help ≠ parse_result.missing_value "-t" := by
  constructor
  · rfl
  · decide

/-- C10 (amended): for every argument vector in which a value-taking flag
(`-t`/`--threads`, `--step`, `--length`, `--keep`, `-c`/`--capture`,
`--alignatt-threshold`, `-l`/`--language`, `-m`/`--model`) is the last
element and is reached by the parse loop as a flag — the preceding arguments
parse cleanly, rather than exiting early at `-h`/an unknown argument or
consuming the flag as a preceding flag's value — `parse_args` reads
`argv[i+1]` with `i + 1 = argc` and no bounds check: in this total embedding
the indexing returns nothing and the `missing_value` branch is taken. -/
theorem C10_value_flag_last_reads_past_end (f : String)
    (hf : isValueFlag f = true) (xs : List String)
    (p q : stream_alignatt_params) (h : parse_args xs p = parse_result.ok q) :
    parse_args (xs ++ [f]) p = parse_result.missing_value f := by
  rw [parse_args_append_ok xs p q h]
  exact parse_args_single_value_flag f hf q

/-- Witness for C10 (amended): `["-m", "x", "--step"]` — the prefix
`["-m", "x"]` parses cleanly, and trailing `--step` hits the out-of-range
read, the `missing_value` branch. -/
theorem C10_value_flag_last_reads_past_end_witness :
    parse_args ["-m", "x", "--step"] {} =
      parse_result.missing_value "--step" :=
  C10_value_flag_last_reads_past_end "--step" (by decide) ["-m", "x"] {}
    { model := "x" } (by decide)

end StreamAlignatt
